import Mathlib

/-!
Verification development for `synet/utils/fnfree_policy.py` (SyNET policy
synthesis: SMT match/action combinators for BGP route maps).

The file shallowly embeds the match/action classes of `fnfree_policy.py`.
The collaborators from `synet/utils/fnfree_smt_context.py` and
`synet/topo/bgp.py` (SolverContext, SMTVar, Announcement) are not part of
the sources under verification; they are modelled from the specification
(sections 3 and 6): a Symbolic Value wraps a solver handle, a sort tag and
an optional concrete value; the Solver Context creates fresh variables and
appends constraints to a growing list.  Z3 expressions are modelled by a
small first-order AST with an evaluator.
-/

namespace Synet

/-- Modelled from the spec: sort tags of Symbolic Values (boolean, integer,
and the finite enumerated sorts used for prefixes, peers, etc.). -/
inductive VSort where
  | bool : VSort
  | int : VSort
  | enum : Nat → VSort
deriving DecidableEq, Repr

/-- Modelled from the spec: concrete values a Symbolic Value may carry. -/
inductive Val where
  | bool : Bool → Val
  | int : Int → Val
  | enum : Nat → Nat → Val
deriving DecidableEq, Repr

/-- Boolean reading of a concrete value (python truthiness of a solver
boolean; non-boolean values are never used in boolean position). -/
def Val.asBool : Val → Bool
  | .bool b => b
  | _ => false

/-- Integer reading of a concrete value. -/
def Val.asInt : Val → Int
  | .int n => n
  | _ => 0

/-- Model of the z3 expression ASTs built by `fnfree_policy.py`: variables
are identified by the numeric handle the Solver Context assigned them. -/
inductive Expr where
  | var : Nat → Expr
  | boolLit : Bool → Expr
  | intLit : Int → Expr
  | eq : Expr → Expr → Expr
  | conj : Expr → Expr → Expr
  | disj : Expr → Expr → Expr
  | ite : Expr → Expr → Expr → Expr
  | ge : Expr → Expr → Expr
  | lt : Expr → Expr → Expr
deriving DecidableEq, Repr

/-- Model of the variadic `z3.And` over a list of conjuncts (a single
conjunct stands for itself, the empty conjunction is true). -/
def zAnd : List Expr → Expr
  | [] => .boolLit true
  | [e] => e
  | e :: es => .conj e (zAnd es)

/-- Model of the variadic `z3.Or` over a list of disjuncts. -/
def zOr : List Expr → Expr
  | [] => .boolLit false
  | [e] => e
  | e :: es => .disj e (zOr es)

/-- Evaluation of a modelled z3 expression under an assignment of the
solver variables. -/
def Expr.eval (ρ : Nat → Val) : Expr → Val
  | .var i => ρ i
  | .boolLit b => .bool b
  | .intLit n => .int n
  | .eq a b => .bool (decide (Expr.eval ρ a = Expr.eval ρ b))
  | .conj a b => .bool ((Expr.eval ρ a).asBool && (Expr.eval ρ b).asBool)
  | .disj a b => .bool ((Expr.eval ρ a).asBool || (Expr.eval ρ b).asBool)
  | .ite c t e => if (Expr.eval ρ c).asBool then Expr.eval ρ t else Expr.eval ρ e
  | .ge a b => .bool (decide ((Expr.eval ρ b).asInt ≤ (Expr.eval ρ a).asInt))
  | .lt a b => .bool (decide ((Expr.eval ρ a).asInt < (Expr.eval ρ b).asInt))

/-- Modelled from the spec (section 3): a Symbolic Value is a solver handle
`id` with a sort tag and an optional concrete value; `is_concrete` is true
iff the concrete value is present. -/
structure SMTVar where
  id : Nat
  vsort : VSort
  value : Option Val
deriving DecidableEq, Repr

/-- Model of `SMTVar.is_concrete`. -/
def SMTVar.is_concrete (v : SMTVar) : Bool := v.value.isSome

/-- Model of `SMTVar.get_value()` read as a boolean (used where the python
code branches on the truthiness of a concrete boolean value). -/
def SMTVar.getBool (v : SMTVar) : Bool := (v.value.getD (Val.bool false)).asBool

/-- Modelled from the spec: result of the Symbolic Value equality
comparison `check_eq`, which yields either a concrete boolean or a
symbolic constraint (section 2, Symbolic Value). -/
inductive CheckEq where
  | concrete : Bool → CheckEq
  | symbolic : Expr → CheckEq
deriving DecidableEq, Repr

/-- Modelled from the spec: `check_eq` folds to a concrete boolean when
both operands carry concrete values, and otherwise produces the symbolic
equality of the two solver handles. -/
def SMTVar.check_eq (a b : SMTVar) : CheckEq :=
  match a.value, b.value with
  | some x, some y => .concrete (decide (x = y))
  | _, _ => .symbolic (.eq (.var a.id) (.var b.id))

/-- Modelled from the spec (section 6): the Solver Context holds the fresh
variable counter and the process-wide, append-only constraint list. -/
structure Ctx where
  nextVar : Nat
  constraints : List Expr
deriving DecidableEq, Repr

/-- Modelled from the spec: `create_fresh_var(sort, value?)` allocates the
next solver handle; the optional value, when it is a concrete payload,
marks the result constant-foldable (`is_concrete`).  Call sites of
`fnfree_policy.py` that pass another Symbolic Value as `value` do not pass
a concrete payload, so the fresh variable is created non-concrete there
(spec section 8, Scenario B). -/
def Ctx.create_fresh_var (c : Ctx) (vsort : VSort) (value : Option Val) :
    SMTVar × Ctx :=
  (⟨c.nextVar, vsort, value⟩, ⟨c.nextVar + 1, c.constraints⟩)

/-- Modelled from the spec: `register_constraint` appends one boolean
expression to the process-wide constraint list. -/
def Ctx.register_constraint (c : Ctx) (e : Expr) : Ctx :=
  ⟨c.nextVar, c.constraints ++ [e]⟩

/-- The fixed plain (non-communities) attributes of an Announcement
(`Announcement.attributes` minus the communities mapping). -/
inductive PlainAttr where
  | pfx | peer | origin | next_hop | as_path | as_path_len
  | local_pref | med | permitted
deriving DecidableEq, Repr

/-- Entries of `Announcement.attributes`: the nine plain attributes plus
the `communities` mapping, which the source iterates like any other
attribute name. -/
inductive AttrName where
  | plain : PlainAttr → AttrName
  | communities : AttrName
deriving DecidableEq, Repr

/-- Iteration order of `Announcement.attributes` (modelled from the spec,
section 3; the exact order only fixes the numbering of fresh variables). -/
def AttrName.all : List AttrName :=
  [.plain .pfx, .plain .peer, .plain .origin, .plain .next_hop,
   .plain .as_path, .plain .as_path_len, .plain .local_pref,
   .plain .med, .plain .permitted, .communities]

/-- Modelled from the spec: an Announcement is an immutable record of
Symbolic Values for the nine plain attributes plus a mapping from
community tag to a boolean Symbolic Value.  `aid` is the object identity
that the per-node caches key on. -/
structure Announcement where
  aid : Nat
  plain : PlainAttr → SMTVar
  communities : List (Nat × SMTVar)

/-- Default Symbolic Value used only to totalize lookups whose success is
a construction invariant in the source. -/
def dummyVar : SMTVar := ⟨0, .bool, none⟩

/-- Default Announcement used only to totalize list indexing whose success
is a construction invariant in the source. -/
def dummyAnn : Announcement := ⟨0, fun _ => dummyVar, []⟩

/-- Association-list lookup with a default, modelling python mapping
subscription whose success is an invariant. -/
def lookupD (l : List (Nat × SMTVar)) (k : Nat) (d : SMTVar) : SMTVar :=
  (List.lookup k l).getD d

/-- Update-or-insert on the communities association list, modelling
`new_comms[community] = new_var`. -/
def updateAssoc : List (Nat × SMTVar) → Nat → SMTVar → List (Nat × SMTVar)
  | [], k, v => [(k, v)]
  | (k', v') :: rest, k, v =>
      if k' = k then (k', v) :: rest else (k', v') :: updateAssoc rest k v

/-- Model of the `value` of `getattr(announcement, attr)`: either one
Symbolic Value (a plain attribute) or the communities mapping. -/
inductive AttrVal where
  | v : SMTVar → AttrVal
  | comms : List (Nat × SMTVar) → AttrVal

/-- Model of accessing the z3 handle `.var` of an attribute value.  A
plain attribute yields its solver variable; the communities mapping is a
python dict and has no `var` attribute, so the access fails. -/
def AttrVal.var : AttrVal → Option Expr
  | .v sv => some (.var sv.id)
  | .comms _ => none

/-- New Announcement sharing every attribute of `a` except plain attribute
`p`, which becomes `nv` (the `Announcement(**new_vals)` record built by the
action execute loops). -/
def setPlain (a : Announcement) (p : PlainAttr) (nv : SMTVar) : Announcement :=
  ⟨a.aid, fun q => if q = p then nv else a.plain q, a.communities⟩

/-- Python truthiness of the `_announcements` slot (`if self._announcements:`):
false for `None` and for an empty announcement set. -/
def annsTruthy : Option (List Announcement) → Bool
  | none => false
  | some l => !l.isEmpty

/-- Type of a guard query as consumed by the action classes: the guard's
`is_match` for a fixed match node, threading the Solver Context.  The
node's own memoization is internal to the function. -/
def MatchFun : Type := Announcement → Ctx → SMTVar × Ctx

/-- A sub-match whose `is_match` returns an already-cached Symbolic Value
without touching the Solver Context (the behavior of every concrete Match
class on a cache hit, and of any match with a concrete result). -/
def constMatch (v : SMTVar) : MatchFun := fun _ c => (v, c)

/-- Threads the Solver Context through the sub-match queries of a
combinator, in list order, collecting the returned Symbolic Values
(the list comprehension `[match.is_match(announcement) for match in
self.matches]`). -/
def runMatches : List MatchFun → Announcement → Ctx → List SMTVar × Ctx
  | [], _, c => ([], c)
  | f :: fs, a, c =>
      let r := f a c
      let rest := runMatches fs a r.2
      (r.1 :: rest.1, rest.2)

/-- Embeds `SMTMatchAnd`: sub-matches, the announcement set, and the
per-announcement result cache.  The constructor performs no checks on the
announcement set. -/
structure SMTMatchAnd where
  sub_matches : List MatchFun
  announcements : List Announcement
  matched_announcements : List (Nat × SMTVar)

/-- Embeds `SMTMatchAnd.__init__` (it stores its arguments and an empty
cache, with no assertion on `announcements`). -/
def mkSMTMatchAnd (sub_matches : List MatchFun) (announcements : List Announcement) :
    SMTMatchAnd :=
  ⟨sub_matches, announcements, []⟩

/-- Embeds `SMTMatchAnd.is_match`: on a cache miss, query every sub-match,
fold concretely when all sub-results are concrete, otherwise allocate a
fresh boolean and register the conjunction constraint. -/
def SMTMatchAnd.is_match (m : SMTMatchAnd) (a : Announcement) (c : Ctx) :
    SMTVar × SMTMatchAnd × Ctx :=
  match List.lookup a.aid m.matched_announcements with
  | some v => (v, m, c)
  | none =>
      let rr := runMatches m.sub_matches a c
      let results := rr.1
      let is_concrete := results.all (fun r => r.is_concrete)
      let value : Option Val :=
        if is_concrete then some (.bool (results.all (fun r => r.getBool))) else none
      let mv := rr.2.create_fresh_var .bool value
      let c2 :=
        if is_concrete then mv.2
        else mv.2.register_constraint
          (.eq (.var mv.1.id)
            (zAnd (results.map (fun r => .eq (.var r.id) (.boolLit true)))))
      (mv.1, {m with matched_announcements := (a.aid, mv.1) :: m.matched_announcements}, c2)

/-- Embeds `SMTMatchOr`: same shape as `SMTMatchAnd`. -/
structure SMTMatchOr where
  sub_matches : List MatchFun
  announcements : List Announcement
  matched_announcements : List (Nat × SMTVar)

/-- Embeds `SMTMatchOr.__init__` (no assertion on `announcements`). -/
def mkSMTMatchOr (sub_matches : List MatchFun) (announcements : List Announcement) :
    SMTMatchOr :=
  ⟨sub_matches, announcements, []⟩

/-- Embeds `SMTMatchOr.is_match`: the disjunctive mirror of
`SMTMatchAnd.is_match`. -/
def SMTMatchOr.is_match (m : SMTMatchOr) (a : Announcement) (c : Ctx) :
    SMTVar × SMTMatchOr × Ctx :=
  match List.lookup a.aid m.matched_announcements with
  | some v => (v, m, c)
  | none =>
      let rr := runMatches m.sub_matches a c
      let results := rr.1
      let is_concrete := results.all (fun r => r.is_concrete)
      let value : Option Val :=
        if is_concrete then some (.bool (results.any (fun r => r.getBool))) else none
      let mv := rr.2.create_fresh_var .bool value
      let c2 :=
        if is_concrete then mv.2
        else mv.2.register_constraint
          (.eq (.var mv.1.id)
            (zOr (results.map (fun r => .eq (.var r.id) (.boolLit true)))))
      (mv.1, {m with matched_announcements := (a.aid, mv.1) :: m.matched_announcements}, c2)

/-- Embeds `SMTMatchAttribute`: the attr name, the target Symbolic
Value, the announcement set and the per-announcement cache. -/
structure SMTMatchAttribute where
  attr : PlainAttr
  value : SMTVar
  announcements : List Announcement
  matched_announcements : List (Nat × SMTVar)

/-- Embeds `SMTMatchAttribute.__init__`: asserts a non-empty announcement
set, creates a default target when `value` is `None`, and asserts the sort
of the target equals the attr's sort; an assertion failure aborts
construction (`none`). -/
def mkSMTMatchAttribute (attr : PlainAttr) (value : Option SMTVar)
    (announcements : List Announcement) (c : Ctx) :
    Option (SMTMatchAttribute × Ctx) :=
  match announcements with
  | [] => none
  | a0 :: rest =>
      let vc :=
        match value with
        | none => c.create_fresh_var (a0.plain attr).vsort none
        | some v => (v, c)
      if (a0.plain attr).vsort = vc.1.vsort then
        some (⟨attr, vc.1, a0 :: rest, []⟩, vc.2)
      else none

/-- Embeds `SMTMatchAttribute.is_match`: on a cache miss, compare the
announcement's attr with the target via `check_eq`; keep the result
concrete when the comparison folds, otherwise allocate a fresh boolean and
register the equality constraint. -/
def SMTMatchAttribute.is_match (m : SMTMatchAttribute) (a : Announcement) (c : Ctx) :
    SMTVar × SMTMatchAttribute × Ctx :=
  match List.lookup a.aid m.matched_announcements with
  | some v => (v, m, c)
  | none =>
      match (a.plain m.attr).check_eq m.value with
      | .concrete b =>
          let mv := c.create_fresh_var .bool (some (.bool b))
          (mv.1, {m with matched_announcements := (a.aid, mv.1) :: m.matched_announcements},
            mv.2)
      | .symbolic e =>
          let mv := c.create_fresh_var .bool none
          let c2 := mv.2.register_constraint (.eq (.var mv.1.id) e)
          (mv.1, {m with matched_announcements := (a.aid, mv.1) :: m.matched_announcements},
            c2)

/-- Embeds `SMTMatchCommunity`: one community tag, the target boolean
Symbolic Value, the announcement set and the cache. -/
structure SMTMatchCommunity where
  community : Nat
  value : SMTVar
  announcements : List Announcement
  matched_announcements : List (Nat × SMTVar)

/-- Embeds `SMTMatchCommunity.__init__`: asserts a non-empty announcement
set and that the community tag is present in the first announcement's
communities; a `None` target defaults to a fresh boolean with concrete
value true. -/
def mkSMTMatchCommunity (community : Nat) (value : Option SMTVar)
    (announcements : List Announcement) (c : Ctx) :
    Option (SMTMatchCommunity × Ctx) :=
  match announcements with
  | [] => none
  | a0 :: rest =>
      if (List.lookup community a0.communities).isSome then
        let vc :=
          match value with
          | none => c.create_fresh_var .bool (some (.bool true))
          | some v => (v, c)
        some (⟨community, vc.1, a0 :: rest, []⟩, vc.2)
      else none

/-- Embeds `SMTMatchSelectOne`: the candidate sub-sub_matches addressed by the
integer index variable, plus the per-announcement cache. -/
structure SMTMatchSelectOne where
  sub_matches : List MatchFun
  index_var : SMTVar
  matched_announcements : List (Nat × SMTVar)

/-- The two-sided index range constraint registered by the SetOne
constructor over k candidates (`z3.And(self.index_var.var >= 0,
self.index_var.var < index.next())`). -/
def rangeExpr (idxId : Nat) (k : Int) : Expr :=
  zAnd [.ge (.var idxId) (.intLit 0), .lt (.var idxId) (.intLit k)]

/-- The constraint the SelectOne constructor actually registers:
`z3.And(self.index_var >= 0, self.index_var.var < index + 1)`.  The first
conjunct applies the comparison to the SMTVar wrapper itself, without
`.var` (unlike the second conjunct and every other comparison in the
file); under the spec's Symbolic Value interface, which offers only an
equality comparison, the Python-2 cross-type comparison of a wrapper
object with an integer silently yields the constant true, so the
registered constraint carries no lower bound on the index. -/
def selectOneRange (idxId : Nat) (k : Int) : Expr :=
  zAnd [.boolLit true, .lt (.var idxId) (.intLit k)]

/-- Embeds `SMTMatchSelectOne.__init__` on the path where an explicit
candidate list is supplied (the default universe built when `sub_matches` is
falsy is not modelled): asserts a non-empty announcement set, allocates
the fresh integer index variable, numbers the candidates by `enumerate`,
and registers `selectOneRange` — the constant-true conjunct from the
wrapper comparison of line 179 together with the upper bound at the last
enumeration index plus one. -/
def mkSMTMatchSelectOne (announcements : List Announcement)
    (sub_matches : List MatchFun) (c : Ctx) : Option (SMTMatchSelectOne × Ctx) :=
  if announcements.isEmpty then none
  else
    let iv := c.create_fresh_var .int none
    let c2 := iv.2.register_constraint
      (selectOneRange iv.1.id ((sub_matches.length : Int) - 1 + 1))
    some (⟨sub_matches, iv.1, []⟩, c2)

/-- Embeds `SMTMatchSelectOne._get_match`: the right-associated
conditional over the candidates, whose base case is the unreachable
`z3.And(index == i, False)` branch.  The Solver Context is threaded
through the candidate queries in order. -/
def getMatchChain (ms : List MatchFun) (idxId : Nat) (a : Announcement)
    (i : Int) (c : Ctx) : Expr × Ctx :=
  match ms with
  | [] => (zAnd [.eq (.var idxId) (.intLit i), .boolLit false], c)
  | f :: rest =>
      let r := f a c
      let nxt := getMatchChain rest idxId a (i + 1) r.2
      (.ite (.eq (.var idxId) (.intLit i)) (.var r.1.id) nxt.1, nxt.2)

/-- Embeds `SMTMatchSelectOne.is_match`: on a cache miss, allocate the
fresh boolean, cache it, then register its equality with the conditional
chain. -/
def SMTMatchSelectOne.is_match (m : SMTMatchSelectOne) (a : Announcement)
    (c : Ctx) : SMTVar × SMTMatchSelectOne × Ctx :=
  match List.lookup a.aid m.matched_announcements with
  | some v => (v, m, c)
  | none =>
      let mv := c.create_fresh_var .bool none
      let m2 : SMTMatchSelectOne :=
        {m with matched_announcements := (a.aid, mv.1) :: m.matched_announcements}
      let ch := getMatchChain m.sub_matches m.index_var.id a 0 mv.2
      let c2 := ch.2.register_constraint (.eq (.var mv.1.id) ch.1)
      (mv.1, m2, c2)

/-- Embeds `SMTSetAttribute`: the guard query, the targeted attribute, the
target Symbolic Value, the old announcement set and the (initially `None`)
new announcement set. -/
structure SMTSetAttribute where
  match_fn : MatchFun
  attr : PlainAttr
  value : SMTVar
  old_announcements : List Announcement
  new_announcements : Option (List Announcement)

/-- Embeds one iteration of the `SMTSetAttribute.execute` loop body for a
single announcement: every attribute other than the target passes through;
the target is selected in the host when the guard result is concrete, and
otherwise a fresh Symbolic Value is allocated (source passes `self.value`,
a Symbolic Value, as the `value` argument) together with the if/else
conditional constraint. -/
def setAttrExecAnn (mf : MatchFun) (p : PlainAttr) (value : SMTVar)
    (ann : Announcement) (c : Ctx) : Announcement × List Expr × Ctx :=
  let im := mf ann c
  if im.1.is_concrete then
    let nv := if im.1.getBool then value else ann.plain p
    (setPlain ann p nv, [], im.2)
  else
    let old_var := ann.plain p
    let fv := im.2.create_fresh_var old_var.vsort none
    let constraint := Expr.ite (.var im.1.id)
      (.eq (.var fv.1.id) (.var value.id))
      (.eq (.var fv.1.id) (.var old_var.id))
    (setPlain ann p fv.1, [constraint], fv.2)

/-- Embeds the announcement loop of `SMTSetAttribute.execute`, collecting
the per-announcement conditional constraints in order. -/
def setAttrExecAnns (mf : MatchFun) (p : PlainAttr) (value : SMTVar) :
    List Announcement → Ctx → List Announcement × List Expr × Ctx
  | [], c => ([], [], c)
  | ann :: rest, c =>
      let r := setAttrExecAnn mf p value ann c
      let rr := setAttrExecAnns mf p value rest r.2.2
      (r.1 :: rr.1, r.2.1 ++ rr.2.1, rr.2.2)

/-- Embeds `SMTSetAttribute.execute`: a no-op once the new announcement
set is populated (and truthy); otherwise processes every old announcement,
registers the collected constraints as one `z3.And` when any exist, and
stores the new announcement set. -/
def SMTSetAttribute.execute (s : SMTSetAttribute) (c : Ctx) :
    SMTSetAttribute × Ctx :=
  if annsTruthy s.new_announcements then (s, c)
  else
    let r := setAttrExecAnns s.match_fn s.attr s.value s.old_announcements c
    let c2 := if r.2.1.isEmpty then r.2.2 else r.2.2.register_constraint (zAnd r.2.1)
    ({s with new_announcements := some r.1}, c2)

/-- Embeds `SMTSetAttribute.__init__`: asserts a non-empty announcement
set, creates a default target value when `value` is `None`, asserts the
sort agreement, and immediately calls `execute`. -/
def mkSMTSetAttribute (match_fn : MatchFun) (attr : PlainAttr)
    (value : Option SMTVar) (announcements : List Announcement) (c : Ctx) :
    Option (SMTSetAttribute × Ctx) :=
  match announcements with
  | [] => none
  | a0 :: rest =>
      let vc :=
        match value with
        | none => c.create_fresh_var (a0.plain attr).vsort none
        | some v => (v, c)
      if (a0.plain attr).vsort = vc.1.vsort then
        some (SMTSetAttribute.execute ⟨match_fn, attr, vc.1, a0 :: rest, none⟩ vc.2)
      else none

/-- Embeds `SMTSetCommunity`: the guard query, the targeted community tag,
the target boolean Symbolic Value and the two announcement-set slots. -/
structure SMTSetCommunity where
  match_fn : MatchFun
  community : Nat
  value : SMTVar
  old_announcements : List Announcement
  new_announcements : Option (List Announcement)

/-- Embeds the communities loop of `SMTSetCommunity.execute` for one
announcement: tags other than the target pass through; the target is
selected in the host when the guard result is concrete.  When the guard
result is symbolic the source builds
`z3.If(is_match.var, new_var.var == self.value, new_var.var == attr_var.var)`
where `attr_var` is the whole communities mapping (not the loop's
`old_var`); the mapping has no `var` attribute, so the access fails and
the computation aborts (`none`). -/
def setCommProcess (mf : MatchFun) (tag : Nat) (value : SMTVar)
    (ann : Announcement) :
    List (Nat × SMTVar) → List Expr → Ctx →
    Option (List (Nat × SMTVar) × List Expr × Ctx)
  | [], cs, c => some ([], cs, c)
  | (community, old_var) :: rest, cs, c =>
      if community ≠ tag then
        match setCommProcess mf tag value ann rest cs c with
        | none => none
        | some (l, cs2, c2) => some ((community, old_var) :: l, cs2, c2)
      else
        let im := mf ann c
        if im.1.is_concrete then
          let nv := if im.1.getBool then value else old_var
          match setCommProcess mf tag value ann rest cs im.2 with
          | none => none
          | some (l, cs2, c2) => some ((community, nv) :: l, cs2, c2)
        else
          let fv := im.2.create_fresh_var .bool none
          match (AttrVal.comms ann.communities).var with
          | none => none
          | some ev =>
              let constraint := Expr.ite (.var im.1.id)
                (.eq (.var fv.1.id) (.var value.id))
                (.eq (.var fv.1.id) ev)
              match setCommProcess mf tag value ann rest (cs ++ [constraint]) fv.2 with
              | none => none
              | some (l, cs2, c2) => some ((community, fv.1) :: l, cs2, c2)

/-- Embeds the announcement loop of `SMTSetCommunity.execute`; every
attribute except `communities` passes through unchanged. -/
def setCommExecAnns (mf : MatchFun) (tag : Nat) (value : SMTVar) :
    List Announcement → List Expr → Ctx →
    Option (List Announcement × List Expr × Ctx)
  | [], cs, c => some ([], cs, c)
  | ann :: rest, cs, c =>
      match setCommProcess mf tag value ann ann.communities cs c with
      | none => none
      | some (newComms, cs2, c2) =>
          match setCommExecAnns mf tag value rest cs2 c2 with
          | none => none
          | some (l, cs3, c3) => some (⟨ann.aid, ann.plain, newComms⟩ :: l, cs3, c3)

/-- Embeds `SMTSetCommunity.execute`: a no-op once the new announcement
set is populated; otherwise rebuilds the communities of every old
announcement, registering the collected constraints as one `z3.And`.  The
result is `none` when the source would raise (see `setCommProcess`). -/
def SMTSetCommunity.execute (s : SMTSetCommunity) (c : Ctx) :
    Option (SMTSetCommunity × Ctx) :=
  if annsTruthy s.new_announcements then some (s, c)
  else
    match setCommExecAnns s.match_fn s.community s.value s.old_announcements [] c with
    | none => none
    | some (anns, cs, c2) =>
        let c3 := if cs.isEmpty then c2 else c2.register_constraint (zAnd cs)
        some ({s with new_announcements := some anns}, c3)

/-- Embeds `SMTSetCommunity.__init__`: checks the community tag against
the first announcement's communities (an empty announcement set fails at
this indexing), defaults `value` to a fresh concrete-true boolean, asserts
the boolean sort, then immediately calls `execute`. -/
def mkSMTSetCommunity (match_fn : MatchFun) (community : Nat)
    (value : Option SMTVar) (announcements : List Announcement) (c : Ctx) :
    Option (SMTSetCommunity × Ctx) :=
  match announcements with
  | [] => none
  | a0 :: rest =>
      if (List.lookup community a0.communities).isSome then
        let vc :=
          match value with
          | none => c.create_fresh_var .bool (some (.bool true))
          | some v => (v, c)
        if vc.1.vsort = .bool then
          SMTSetCommunity.execute ⟨match_fn, community, vc.1, a0 :: rest, none⟩ vc.2
        else none
      else none

/-- Models one already-executed candidate action as consumed by
`SMTSetOne`: the identity of its guard and of its input announcement set
(used by the constructor's assertions), its attribute and community
footprints, and its already-computed new announcements.  The candidates a
caller passes are executed `SMTSetAttribute`/`SMTSetCommunity` objects, so
the `action.execute()` calls inside `SMTSetOne.execute` are no-ops. -/
structure CandAction where
  matchTag : Nat
  oldTag : Nat
  foot : List AttrName
  commsFoot : List Nat
  newAnns : List Announcement

/-- Embeds `SMTSetOne`: the guard identity, the announcement-set slots,
the fresh index variable and the numbered candidate actions. -/
structure SMTSetOne where
  matchTag : Nat
  old_announcements : List Announcement
  new_announcements : Option (List Announcement)
  index_var : SMTVar
  actions : List CandAction

/-- Embeds the `attributes` footprint union of `SMTSetOne` as a
membership test (`attr not in self.attributes`).  The `None` marker that
`getattr(a, 'attributes', set([None]))` would contribute cannot arise for
the `SMTAction` candidates modelled here, so `attr_only` is true. -/
def SMTSetOne.attrInFoot (s : SMTSetOne) (a : AttrName) : Bool :=
  s.actions.any (fun act => act.foot.contains a)

/-- Embeds the `communities` footprint union of `SMTSetOne` (iteration
order: candidate order, first occurrence wins). -/
def communitiesUnion (acts : List CandAction) : List Nat :=
  acts.foldl (fun acc a => acc ++ (a.commsFoot.filter (fun t => !acc.contains t))) []

/-- Embeds `SMTSetOne._get_actions`: the right-associated conditional over
the candidates' already-computed values of plain attribute `p` for the
announcement at `annIdx`, with the supplied `default` as the base case. -/
def getActionsChain (acts : List CandAction) (idxId : Nat) (annIdx : Nat)
    (p : PlainAttr) (default : Expr) (i : Int) : Expr :=
  match acts with
  | [] => default
  | act :: rest =>
      let value := (act.newAnns.getD annIdx dummyAnn).plain p
      .ite (.eq (.var idxId) (.intLit i)) (.var value.id)
        (getActionsChain rest idxId annIdx p default (i + 1))

/-- Embeds `SMTSetOne._get_communities`: the analogous conditional over
the candidates' computed community booleans for one tag. -/
def getCommsChain (acts : List CandAction) (idxId : Nat) (annIdx : Nat)
    (tag : Nat) (default : Expr) (i : Int) : Expr :=
  match acts with
  | [] => default
  | act :: rest =>
      let value := lookupD (act.newAnns.getD annIdx dummyAnn).communities tag dummyVar
      .ite (.eq (.var idxId) (.intLit i)) (.var value.id)
        (getCommsChain rest idxId annIdx tag default (i + 1))

/-- Embeds the inner communities loop of `SMTSetOne.execute`: one fresh
boolean per tag in the footprint union, constrained equal to the tag's
conditional chain whose default is the fresh variable itself. -/
def setOneComms (s : SMTSetOne) (annIdx : Nat) :
    List Nat → List (Nat × SMTVar) → Ctx → List (Nat × SMTVar) × Ctx
  | [], comms, c => (comms, c)
  | tag :: rest, comms, c =>
      let fv := c.create_fresh_var .bool none
      let value := getCommsChain s.actions s.index_var.id annIdx tag (.var fv.1.id) 0
      let c2 := fv.2.register_constraint (.eq (.var fv.1.id) value)
      setOneComms s annIdx rest (updateAssoc comms tag fv.1) c2

/-- Embeds the per-attribute loop of `SMTSetOne.execute` for one old
announcement: attributes outside the footprint union pass through; a
changed plain attribute gets one fresh Symbolic Value constrained to its
conditional chain (default: the fresh variable itself); the communities
attribute triggers the per-tag loop. -/
def setOneAttrs (s : SMTSetOne) (old : Announcement) (annIdx : Nat) :
    List AttrName → (PlainAttr → SMTVar) → List (Nat × SMTVar) → Ctx →
    ((PlainAttr → SMTVar) × List (Nat × SMTVar) × Ctx)
  | [], pl, comms, c => (pl, comms, c)
  | a :: rest, pl, comms, c =>
      if s.attrInFoot a then
        match a with
        | .communities =>
            let r := setOneComms s annIdx (communitiesUnion s.actions) comms c
            setOneAttrs s old annIdx rest pl r.1 r.2
        | .plain p =>
            let old_var := old.plain p
            let fv := c.create_fresh_var old_var.vsort none
            let value := getActionsChain s.actions s.index_var.id annIdx p (.var fv.1.id) 0
            let c2 := fv.2.register_constraint (.eq (.var fv.1.id) value)
            setOneAttrs s old annIdx rest (fun q => if q = p then fv.1 else pl q) comms c2
      else
        setOneAttrs s old annIdx rest pl comms c

/-- Embeds the announcement loop of `SMTSetOne.execute`. -/
def setOneExecAnns (s : SMTSetOne) :
    List Announcement → Nat → Ctx → List Announcement × Ctx
  | [], _, c => ([], c)
  | old :: rest, i, c =>
      let r := setOneAttrs s old i AttrName.all old.plain old.communities c
      let rr := setOneExecAnns s rest (i + 1) r.2.2
      (⟨old.aid, r.1, r.2.1⟩ :: rr.1, rr.2)

/-- Embeds `SMTSetOne.execute`: re-executes the candidates (no-ops for
executed candidates), then builds the composed announcement set.  There is
no re-entry guard: each call allocates fresh variables, registers fresh
constraints, and overwrites the new announcement set. -/
def SMTSetOne.execute (s : SMTSetOne) (c : Ctx) : SMTSetOne × Ctx :=
  let r := setOneExecAnns s s.old_announcements 0 c
  ({s with new_announcements := some r.1}, r.2)

/-- Embeds `SMTSetOne.__init__` on the path where an explicit candidate
list is supplied (the default universe built when `actions` is falsy is
not modelled): asserts a non-empty announcement set, allocates the fresh
integer index variable, asserts every candidate shares the guard and the
input announcement set, numbers the candidates with the shared counter,
and registers the index range constraint.  It does not call `execute`. -/
def mkSMTSetOne (matchTag oldTag : Nat) (announcements : List Announcement)
    (actions : List CandAction) (c : Ctx) : Option (SMTSetOne × Ctx) :=
  if announcements.isEmpty then none
  else
    let iv := c.create_fresh_var .int none
    if actions.all (fun act => act.matchTag = matchTag && act.oldTag = oldTag) then
      let c2 := iv.2.register_constraint (rangeExpr iv.1.id (actions.length : Int))
      some (⟨matchTag, announcements, none, iv.1, actions⟩, c2)
    else none

/-- Default candidate action, used only to totalize list indexing. -/
def dummyCand : CandAction := ⟨0, 0, [], [], []⟩

/-- An initial, empty Solver Context. -/
def ctx0 : Ctx := ⟨0, []⟩

/-- A concrete test announcement: every plain attribute held by solver
variable 10 (integer sorted, symbolic), one community tag 0 held by solver
variable 11 with concrete value true. -/
def annA : Announcement :=
  ⟨1, fun _ => ⟨10, .int, none⟩, [(0, ⟨11, .bool, some (.bool true)⟩)]⟩

/-- A guard query with a purely symbolic outcome: it allocates a fresh
non-concrete boolean for the match result (the state any Match node is in
when partial evaluation is impossible). -/
def symMatch : MatchFun := fun _ c => c.create_fresh_var .bool none

/-- A concrete already-executed candidate action changing only
`local_pref`: its computed output announcement holds solver variable 20
for every plain attribute. -/
def candA : CandAction :=
  ⟨0, 0, [.plain .local_pref], [], [⟨2, fun _ => ⟨20, .int, none⟩, []⟩]⟩

/-- A concrete `SMTSetOne` built over the single candidate `candA` and the
single announcement `annA`. -/
def soRun : Option (SMTSetOne × Ctx) := mkSMTSetOne 0 0 [annA] [candA] ctx0

/-- A concrete `SMTSetAttribute` whose new announcement set is already
populated. -/
def sAttrDone : SMTSetAttribute :=
  ⟨constMatch dummyVar, .local_pref, ⟨30, .int, none⟩, [annA], some [annA]⟩

/-- A concrete `SMTSetCommunity` whose new announcement set is already
populated. -/
def sCommDone : SMTSetCommunity :=
  ⟨constMatch dummyVar, 0, ⟨30, .bool, some (.bool true)⟩, [annA], some [annA]⟩

/-- A concrete `SMTSetCommunity` construction whose guard outcome is
symbolic on `annA` (the failing input of the `attr_var.var` defect). -/
def c3Run : Option (SMTSetCommunity × Ctx) :=
  mkSMTSetCommunity symMatch 0 (some ⟨30, .bool, some (.bool true)⟩) [annA] ctx0

/-- A concrete `SMTSetOne` over one candidate, built directly (as the
constructor would produce it: index variable 0, candidates `[candA]`). -/
def sOne : SMTSetOne := ⟨0, [annA], none, ⟨0, .int, none⟩, [candA]⟩

/-- Any-fold over a list whose predicate is false on every member. -/
theorem list_any_eq_false {α : Type} (l : List α) (f : α → Bool)
    (h : ∀ x ∈ l, f x = false) : l.any f = false := by
  induction l with
  | nil => rfl
  | cons a t ih =>
      simp only [List.any_cons, Bool.or_eq_false_iff]
      exact ⟨h a (List.mem_cons_self a t), ih fun x hx => h x (List.mem_cons_of_mem a hx)⟩

/-- Any-fold over a non-empty list whose predicate is true on every
member. -/
theorem list_any_eq_true {α : Type} (l : List α) (f : α → Bool)
    (hne : l ≠ []) (h : ∀ x ∈ l, f x = true) : l.any f = true := by
  cases l with
  | nil => exact absurd rfl hne
  | cons a t =>
      simp only [List.any_cons, Bool.or_eq_true]
      exact Or.inl (h a (List.mem_cons_self a t))

/-- Sub-matches that return already-cached values thread the Solver
Context through unchanged and return exactly those values. -/
theorem runMatches_const (rs : List SMTVar) (a : Announcement) (c : Ctx) :
    runMatches (rs.map constMatch) a c = (rs, c) := by
  induction rs with
  | nil => rfl
  | cons v t ih => simp [runMatches, constMatch, ih]

/-- Evaluation of the conditional chain of `SMTSetOne._get_actions`: when
the index variable is assigned `j` with `j` inside the candidate range,
the chain selects candidate `j`'s computed value of the attribute. -/
theorem getActionsChain_select (ρ : Nat → Val) (p : PlainAttr)
    (idxId annIdx : Nat) :
    ∀ (acts : List CandAction) (d : Expr) (i : Int) (j : Nat),
      j < acts.length → ρ idxId = Val.int (i + j) →
      Expr.eval ρ (getActionsChain acts idxId annIdx p d i)
        = ρ (((acts.getD j dummyCand).newAnns.getD annIdx dummyAnn).plain p).id := by
  intro acts
  induction acts with
  | nil => intro d i j hj _; exact absurd hj (by simp)
  | cons act rest ih =>
      intro d i j hj hρ
      cases j with
      | zero =>
          have hc : ρ idxId = Val.int i := by simpa using hρ
          simp [getActionsChain, Expr.eval, hc, Val.asBool]
      | succ j =>
          have hne : ¬(ρ idxId = Val.int i) := by
            rw [hρ]
            intro hcon
            have := Val.int.inj hcon
            omega
          have hstep : ρ idxId = Val.int ((i + 1) + j) := by
            rw [hρ]; congr 1; push_cast; ring
          have hj' : j < rest.length := by simpa using hj
          have hrec := ih d (i + 1) j hj' hstep
          simpa [getActionsChain, Expr.eval, Val.asBool, hne,
            List.getD_cons_succ] using hrec

/-- Executing an `SMTSetAttribute` whose new announcement set is not yet
populated always populates it. -/
theorem setAttr_execute_populates (s : SMTSetAttribute) (c : Ctx)
    (h : s.new_announcements = none) :
    ((s.execute c).1).new_announcements.isSome = true := by
  simp [SMTSetAttribute.execute, h, annsTruthy]

/-- Transport of `setAttr_execute_populates` along an execution equation. -/
theorem setAttr_mk_populates_aux (s : SMTSetAttribute) (c' : Ctx)
    (X : SMTSetAttribute) (Y : Ctx) (hX : X.new_announcements = none)
    (hE : X.execute Y = (s, c')) : s.new_announcements.isSome = true := by
  have h2 := setAttr_execute_populates X Y hX
  rw [hE] at h2
  exact h2

/-- Executing an `SMTSetCommunity` whose new announcement set is not yet
populated populates it whenever execution does not abort. -/
theorem setComm_execute_populates (s : SMTSetCommunity) (c : Ctx)
    (s' : SMTSetCommunity) (c' : Ctx) (h : s.new_announcements = none)
    (hex : s.execute c = some (s', c')) :
    s'.new_announcements.isSome = true := by
  rw [SMTSetCommunity.execute, h] at hex
  simp only [annsTruthy, Bool.false_eq_true, if_false] at hex
  rcases hr : setCommExecAnns s.match_fn s.community s.value s.old_announcements [] c with
    _ | ⟨anns, cs, c2⟩
  · rw [hr] at hex; exact absurd hex (by simp)
  · rw [hr] at hex
    simp only [Option.some.injEq, Prod.mk.injEq] at hex
    rw [← hex.1]
    rfl

/-- C10: a MatchAnd over an empty candidate list is the empty conjunction:
on any announcement it yields a concrete true Symbolic Value and registers
no constraint; a MatchOr over an empty list symmetrically yields concrete
false with no constraint. -/
theorem C10_empty_combinator_identities :
    ∀ (a : Announcement) (anns : List Announcement) (c : Ctx),
      (((mkSMTMatchAnd [] anns).is_match a c).1.value = some (Val.bool true)
        ∧ ((mkSMTMatchAnd [] anns).is_match a c).2.2.constraints = c.constraints)
      ∧ (((mkSMTMatchOr [] anns).is_match a c).1.value = some (Val.bool false)
        ∧ ((mkSMTMatchOr [] anns).is_match a c).2.2.constraints = c.constraints) := by
  intro a anns c
  refine ⟨⟨?_, ?_⟩, ⟨?_, ?_⟩⟩ <;>
    simp [mkSMTMatchAnd, mkSMTMatchOr, SMTMatchAnd.is_match, SMTMatchOr.is_match,
      runMatches, Ctx.create_fresh_var, SMTVar.is_concrete, List.lookup]

/-- C7 (amended): every constructor that takes an announcement set other
than MatchAnd and MatchOr aborts construction on an empty announcement
set (MatchAttribute, MatchCommunity, SelectOne, SetAttribute and SetOne by
an eager assertion, SetCommunity by its indexing of the first
announcement). -/
theorem C7_empty_announcements_fail_fast :
    ∀ (p : PlainAttr) (v : Option SMTVar) (tag : Nat) (ms : List MatchFun)
      (mf : MatchFun) (mt ot : Nat) (acts : List CandAction) (c : Ctx),
      mkSMTMatchAttribute p v [] c = none
      ∧ mkSMTMatchCommunity tag v [] c = none
      ∧ mkSMTMatchSelectOne [] ms c = none
      ∧ mkSMTSetAttribute mf p v [] c = none
      ∧ mkSMTSetCommunity mf tag v [] c = none
      ∧ mkSMTSetOne mt ot [] acts c = none := by
  intro p v tag ms mf mt ot acts c
  exact ⟨rfl, rfl, rfl, rfl, rfl, rfl⟩

/-- C7 counterexample: `SMTMatchAnd` (and `SMTMatchOr`) perform no check
on the announcement set: constructed over an empty announcement set they
silently produce a usable node whose `is_match` answers queries, refuting
the claim that every constructor detects the empty set and aborts. -/
theorem C7_counterexample_matchand_accepts_empty :
    ((mkSMTMatchAnd [] ([] : List Announcement)).is_match annA ctx0).1.value
      = some (Val.bool true)
    ∧ ((mkSMTMatchOr [] ([] : List Announcement)).is_match annA ctx0).1.value
      = some (Val.bool false) :=
  ⟨rfl, rfl⟩

/-- C3 (code bug): evaluating `SMTSetCommunity` at the failing input — a
guard whose match result is symbolic over one announcement carrying the
targeted community — aborts: the source reaches
`new_var.var == attr_var.var` where `attr_var` is the announcement's whole
communities mapping (`getattr(announcement, 'communities')`), not the old
boolean of the targeted tag, and a mapping has no `var` attribute. -/
theorem C3_symbolic_setcommunity_crashes : c3Run = none := rfl

/-- C1 (amended): `execute` is idempotent for `SMTSetAttribute` and
`SMTSetCommunity` — once the new announcement set is populated (with the
non-empty set construction guarantees), re-invocation returns immediately,
allocating no variable and registering no constraint.  `SMTSetOne.execute`
has no such guard (see the counterexample). -/
theorem C1_guarded_execute_idempotent :
    (∀ (s : SMTSetAttribute) (c : Ctx) (l : List Announcement),
        s.new_announcements = some l → l ≠ [] → s.execute c = (s, c))
    ∧ (∀ (s : SMTSetCommunity) (c : Ctx) (l : List Announcement),
        s.new_announcements = some l → l ≠ [] → s.execute c = some (s, c)) := by
  constructor
  · intro s c l h hne
    rw [SMTSetAttribute.execute, h]
    simp [annsTruthy, hne]
  · intro s c l h hne
    rw [SMTSetCommunity.execute, h]
    simp [annsTruthy, hne]

/-- C1 witness: concrete populated actions at which the guarded `execute`
is a no-op. -/
theorem C1_guarded_execute_idempotent_witness :
    sAttrDone.execute ctx0 = (sAttrDone, ctx0)
    ∧ sCommDone.execute ctx0 = some (sCommDone, ctx0) :=
  ⟨C1_guarded_execute_idempotent.1 sAttrDone ctx0 [annA] rfl (List.cons_ne_nil _ _),
   C1_guarded_execute_idempotent.2 sCommDone ctx0 [annA] rfl (List.cons_ne_nil _ _)⟩

/-- C1 counterexample: `SMTSetOne.execute` is not idempotent.  On the
concrete one-candidate instance `soRun`, the first `execute` leaves two
registered constraints; calling `execute` again — with the new
announcement set already populated — registers a third constraint instead
of being a no-op. -/
theorem C1_counterexample_setone_reexecutes :
    (soRun.map (fun pr =>
        ((pr.1.execute pr.2).2.constraints.length,
          (((pr.1.execute pr.2).1.execute (pr.1.execute pr.2).2).2.constraints.length)))
      = some (2, 3)) := by
  rfl

/-- C2 (amended): constructing an `SMTSetAttribute` or `SMTSetCommunity`
immediately executes it — whenever the constructor returns, the new
announcement set is populated.  `SMTSetOne.__init__` does not call
`execute` (see the counterexample). -/
theorem C2_constructor_executes :
    (∀ (mf : MatchFun) (p : PlainAttr) (v : Option SMTVar)
        (anns : List Announcement) (c : Ctx) (s : SMTSetAttribute) (c' : Ctx),
        mkSMTSetAttribute mf p v anns c = some (s, c') →
        s.new_announcements.isSome = true)
    ∧ (∀ (mf : MatchFun) (tag : Nat) (v : Option SMTVar)
        (anns : List Announcement) (c : Ctx) (s : SMTSetCommunity) (c' : Ctx),
        mkSMTSetCommunity mf tag v anns c = some (s, c') →
        s.new_announcements.isSome = true) := by
  constructor
  · intro mf p v anns c s c' h
    match anns with
    | [] => exact absurd h (by simp [mkSMTSetAttribute])
    | a0 :: rest =>
        simp only [mkSMTSetAttribute] at h
        by_cases hs : (a0.plain p).vsort =
            (match v with
              | none => c.create_fresh_var (a0.plain p).vsort none
              | some v => (v, c)).1.vsort
        · rw [if_pos hs] at h
          simp only [Option.some.injEq] at h
          exact setAttr_mk_populates_aux s c' _ _ rfl h
        · rw [if_neg hs] at h
          exact absurd h (by simp)
  · intro mf tag v anns c s c' h
    match anns with
    | [] => exact absurd h (by simp [mkSMTSetCommunity])
    | a0 :: rest =>
        simp only [mkSMTSetCommunity] at h
        by_cases hc : (List.lookup tag a0.communities).isSome = true
        · rw [if_pos hc] at h
          by_cases hs : (match v with
              | none => c.create_fresh_var .bool (some (.bool true))
              | some v => (v, c)).1.vsort = VSort.bool
          · rw [if_pos hs] at h
            exact setComm_execute_populates _ _ _ _ rfl h
          · rw [if_neg hs] at h
            exact absurd h (by simp)
        · rw [if_neg hc] at h
          exact absurd h (by simp)

/-- C2 witness: a concrete `SMTSetAttribute` construction whose result has
the new announcement set populated with no separate activation step. -/
theorem C2_constructor_executes_witness :
    ∃ (s : SMTSetAttribute) (c' : Ctx),
      mkSMTSetAttribute symMatch .local_pref (some ⟨30, .int, none⟩) [annA] ctx0
        = some (s, c')
      ∧ s.new_announcements.isSome = true :=
  ⟨_, _, rfl,
    C2_constructor_executes.1 symMatch .local_pref (some ⟨30, .int, none⟩)
      [annA] ctx0 _ _ rfl⟩

/-- C2 counterexample: after `mkSMTSetOne` returns, the new announcement
set is still `None` — a separate `execute()` call is required, refuting
the claim that constructing every Action immediately executes it. -/
theorem C2_counterexample_setone_not_executed :
    (soRun.map (fun pr => pr.1.new_announcements.isSome)) = some false := rfl

/-- Semantics of the registered range constraint: it holds exactly when
the index assignment lies in the half-open interval from 0 to k. -/
theorem rangeExpr_eval (i : Nat) (k : Int) (ρ : Nat → Val) :
    (Expr.eval ρ (rangeExpr i k)).asBool = true ↔
      (0 ≤ (ρ i).asInt ∧ (ρ i).asInt < k) := by
  simp [rangeExpr, zAnd, Expr.eval, Val.asBool, Val.asInt]

/-- Semantics of the constraint SelectOne registers: only the upper bound
— any index assignment below k satisfies it, negative values included. -/
theorem selectOneRange_eval (i : Nat) (k : Int) (ρ : Nat → Val) :
    (Expr.eval ρ (selectOneRange i k)).asBool = true ↔ (ρ i).asInt < k := by
  simp [selectOneRange, zAnd, Expr.eval, Val.asBool, Val.asInt]

/-- A concrete `SMTMatchSelectOne` construction over a single candidate
match. -/
def selRun : Option (SMTMatchSelectOne × Ctx) :=
  mkSMTMatchSelectOne [annA] [symMatch] ctx0

/-- C4 (amended): `SMTSetOne.__init__` over k explicit candidates
registers exactly the range constraint 0 less-or-equal index less-than k
on the fresh integer index variable, which semantically is that interval
and for k = 1 forces index = 0.  `SMTMatchSelectOne.__init__` instead
registers the conjunction of the constant true (its lower-bound conjunct
compares the SMTVar wrapper, not its solver variable) with the upper
bound, so its constraint is semantically only index less-than k, with no
lower bound. -/
theorem C4_index_range_amended :
    (∀ (mt ot : Nat) (anns : List Announcement) (acts : List CandAction)
        (c : Ctx) (s : SMTSetOne) (c' : Ctx),
        acts ≠ [] → mkSMTSetOne mt ot anns acts c = some (s, c') →
        c'.constraints = c.constraints
          ++ [rangeExpr s.index_var.id (acts.length : Int)])
    ∧ (∀ (i : Nat) (k : Int) (ρ : Nat → Val),
        (Expr.eval ρ (rangeExpr i k)).asBool = true ↔
          (0 ≤ (ρ i).asInt ∧ (ρ i).asInt < k))
    ∧ (∀ (i : Nat) (ρ : Nat → Val),
        (Expr.eval ρ (rangeExpr i 1)).asBool = true → (ρ i).asInt = 0)
    ∧ (∀ (anns : List Announcement) (ms : List MatchFun) (c : Ctx)
        (s : SMTMatchSelectOne) (c' : Ctx),
        ms ≠ [] → mkSMTMatchSelectOne anns ms c = some (s, c') →
        c'.constraints = c.constraints
          ++ [selectOneRange s.index_var.id (ms.length : Int)])
    ∧ (∀ (i : Nat) (k : Int) (ρ : Nat → Val),
        (Expr.eval ρ (selectOneRange i k)).asBool = true ↔
          (ρ i).asInt < k) := by
  refine ⟨?_, rangeExpr_eval, ?_, ?_, selectOneRange_eval⟩
  · intro mt ot anns acts c s c' _ h
    simp only [mkSMTSetOne] at h
    by_cases he : anns.isEmpty = true
    · rw [if_pos he] at h; exact absurd h (by simp)
    · rw [if_neg he] at h
      by_cases ha : acts.all (fun act => act.matchTag = mt && act.oldTag = ot) = true
      · rw [if_pos ha] at h
        simp only [Option.some.injEq, Prod.mk.injEq] at h
        obtain ⟨hs, hc⟩ := h
        subst hs; subst hc
        simp [Ctx.create_fresh_var, Ctx.register_constraint]
      · rw [if_neg ha] at h
        exact absurd h (by simp)
  · intro i ρ h
    have h2 := (rangeExpr_eval i 1 ρ).mp h
    omega
  · intro anns ms c s c' _ h
    simp only [mkSMTMatchSelectOne] at h
    by_cases he : anns.isEmpty = true
    · rw [if_pos he] at h; exact absurd h (by simp)
    · rw [if_neg he] at h
      simp only [Option.some.injEq, Prod.mk.injEq] at h
      obtain ⟨hs, hc⟩ := h
      subst hs; subst hc
      simp [Ctx.create_fresh_var, Ctx.register_constraint, selectOneRange,
        Int.sub_add_cancel]

/-- C4 witness: a concrete SetOne over one candidate registers the
two-sided range constraint; the satisfying assignment for k = 1 maps the
index to 0; and a concrete SelectOne over one candidate registers the
upper-bound-only constraint. -/
theorem C4_index_range_amended_witness :
    (∃ (s : SMTSetOne) (c' : Ctx),
        mkSMTSetOne 0 0 [annA] [candA] ctx0 = some (s, c')
        ∧ c'.constraints = ctx0.constraints ++ [rangeExpr s.index_var.id 1])
    ∧ ((fun _ => Val.int 0) 7).asInt = 0
    ∧ (∃ (s : SMTMatchSelectOne) (c' : Ctx),
        mkSMTMatchSelectOne [annA] [symMatch] ctx0 = some (s, c')
        ∧ c'.constraints = ctx0.constraints
            ++ [selectOneRange s.index_var.id 1]) :=
  ⟨⟨_, _, rfl,
      C4_index_range_amended.1 0 0 [annA] [candA] ctx0 _ _
        (List.cons_ne_nil _ _) rfl⟩,
    C4_index_range_amended.2.2.1 7 (fun _ => Val.int 0) (by decide),
    ⟨_, _, rfl,
      C4_index_range_amended.2.2.2.1 [annA] [symMatch] ctx0 _ _
        (List.cons_ne_nil _ _) rfl⟩⟩

/-- C4 counterexample: the concrete one-candidate SelectOne `selRun`
registers the conjunction of constant true with index less-than 1 — not
the claimed 0 less-or-equal index less-than 1 — and the assignment
sending the index variable (handle 0) to -1 satisfies that registered
constraint while the index is not 0: the k = 1 constraint does not force
index = 0. -/
theorem C4_counterexample_selectone_no_lower_bound :
    ((selRun.map (fun pr => pr.2.constraints))
      = some [Expr.conj (.boolLit true) (.lt (.var 0) (.intLit 1))])
    ∧ (Expr.eval (fun _ => Val.int (-1))
        (Expr.conj (.boolLit true) (.lt (.var 0) (.intLit 1)))).asBool = true
    ∧ ((fun _ => Val.int (-1)) 0).asInt ≠ 0 :=
  ⟨by decide, by decide, by decide⟩

/-- A concrete boolean Symbolic Value carrying true, with handle 5. -/
def vT5 : SMTVar := ⟨5, .bool, some (.bool true)⟩

/-- A concrete boolean Symbolic Value carrying true, with handle 6. -/
def vT6 : SMTVar := ⟨6, .bool, some (.bool true)⟩

/-- C6: when every sub-match result is concrete (modelled by sub-queries
that return cached concrete Symbolic Values), `SMTMatchAnd.is_match`
returns a concrete value equal to the host fold of logical AND over the
sub-results and registers no constraint; `SMTMatchOr.is_match` is the
symmetric OR fold. -/
theorem C6_concrete_fold_no_constraints :
    ∀ (rs : List SMTVar) (a : Announcement) (anns : List Announcement) (c : Ctx),
      (∀ v ∈ rs, v.is_concrete = true) →
      ((((mkSMTMatchAnd (rs.map constMatch) anns).is_match a c).1.value
          = some (Val.bool (rs.all SMTVar.getBool)))
        ∧ (((mkSMTMatchAnd (rs.map constMatch) anns).is_match a c).2.2.constraints
          = c.constraints))
      ∧ ((((mkSMTMatchOr (rs.map constMatch) anns).is_match a c).1.value
          = some (Val.bool (rs.any SMTVar.getBool)))
        ∧ (((mkSMTMatchOr (rs.map constMatch) anns).is_match a c).2.2.constraints
          = c.constraints)) := by
  intro rs a anns c h
  have hall : rs.all SMTVar.is_concrete = true := List.all_eq_true.mpr h
  refine ⟨⟨?_, ?_⟩, ⟨?_, ?_⟩⟩ <;>
    simp [mkSMTMatchAnd, mkSMTMatchOr, SMTMatchAnd.is_match, SMTMatchOr.is_match,
      runMatches_const, List.lookup, hall, Ctx.create_fresh_var]

/-- C6 witness: a MatchAnd over two concrete-true sub-results yields
concrete true with zero registered constraints. -/
theorem C6_concrete_fold_no_constraints_witness :
    (((mkSMTMatchAnd ([vT5, vT6].map constMatch) []).is_match annA ctx0).1.value
      = some (Val.bool true))
    ∧ (((mkSMTMatchAnd ([vT5, vT6].map constMatch) []).is_match annA ctx0).2.2.constraints
      = ctx0.constraints) :=
  (C6_concrete_fold_no_constraints [vT5, vT6] annA [] ctx0 (by decide)).1

/-- C9: querying the same (node, announcement) pair a second time returns
the identical cached Symbolic Value, with the node and the Solver Context
unchanged, for `SMTMatchAttribute` and `SMTMatchSelectOne`; moreover an
`SMTMatchAttribute` query registers at most one constraint for the pair. -/
theorem C9_cache_idempotence :
    (∀ (m : SMTMatchAttribute) (a : Announcement) (c : Ctx),
        ((m.is_match a c).2.1.is_match a (m.is_match a c).2.2).1 = (m.is_match a c).1
        ∧ ((m.is_match a c).2.1.is_match a (m.is_match a c).2.2).2.1
            = (m.is_match a c).2.1
        ∧ ((m.is_match a c).2.1.is_match a (m.is_match a c).2.2).2.2
            = (m.is_match a c).2.2
        ∧ (m.is_match a c).2.2.constraints.length ≤ c.constraints.length + 1)
    ∧ (∀ (m : SMTMatchSelectOne) (a : Announcement) (c : Ctx),
        ((m.is_match a c).2.1.is_match a (m.is_match a c).2.2).1 = (m.is_match a c).1
        ∧ ((m.is_match a c).2.1.is_match a (m.is_match a c).2.2).2.1
            = (m.is_match a c).2.1
        ∧ ((m.is_match a c).2.1.is_match a (m.is_match a c).2.2).2.2
            = (m.is_match a c).2.2) := by
  constructor
  · intro m a c
    rcases hl : List.lookup a.aid m.matched_announcements with _ | v
    · rcases hc : (a.plain m.attr).check_eq m.value with b | e
      · refine ⟨?_, ?_, ?_, ?_⟩ <;>
          simp [SMTMatchAttribute.is_match, hl, hc, List.lookup,
            Ctx.create_fresh_var, Ctx.register_constraint]
      · refine ⟨?_, ?_, ?_, ?_⟩ <;>
          simp [SMTMatchAttribute.is_match, hl, hc, List.lookup,
            Ctx.create_fresh_var, Ctx.register_constraint]
    · refine ⟨?_, ?_, ?_, ?_⟩ <;>
        simp [SMTMatchAttribute.is_match, hl]
  · intro m a c
    rcases hl : List.lookup a.aid m.matched_announcements with _ | v
    · refine ⟨?_, ?_, ?_⟩ <;>
        simp [SMTMatchSelectOne.is_match, hl, List.lookup,
          Ctx.create_fresh_var, Ctx.register_constraint]
    · refine ⟨?_, ?_, ?_⟩ <;> simp [SMTMatchSelectOne.is_match, hl]

/-- C5: an `SMTSetAttribute` over a single announcement whose guard result
is symbolic produces a non-concrete new attribute value, and the Solver
Context gains exactly the one if/else constraint (fresh equals the target
if match, else the old attribute variable) for that announcement. -/
theorem C5_setattribute_symbolic_one_constraint :
    ∀ (mf : MatchFun) (p : PlainAttr) (v : SMTVar) (a : Announcement)
      (c : Ctx) (mv : SMTVar) (c1 : Ctx),
      mf a c = (mv, c1) → mv.value = none → v.vsort = (a.plain p).vsort →
      ∃ (s : SMTSetAttribute) (c' : Ctx),
        mkSMTSetAttribute mf p (some v) [a] c = some (s, c')
        ∧ (∃ l, s.new_announcements = some l
            ∧ ((l.getD 0 dummyAnn).plain p).is_concrete = false)
        ∧ c'.constraints = c1.constraints ++
            [Expr.ite (.var mv.id)
              (.eq (.var c1.nextVar) (.var v.id))
              (.eq (.var c1.nextVar) (.var (a.plain p).id))] := by
  intro mf p v a c mv c1 hm hmv hsort
  have hmk : mkSMTSetAttribute mf p (some v) [a] c = some
      ({match_fn := mf, attr := p, value := v, old_announcements := [a],
        new_announcements :=
          some [setPlain a p ⟨c1.nextVar, (a.plain p).vsort, none⟩]},
        ⟨c1.nextVar + 1, c1.constraints ++
          [Expr.ite (.var mv.id)
            (.eq (.var c1.nextVar) (.var v.id))
            (.eq (.var c1.nextVar) (.var (a.plain p).id))]⟩) := by
    simp only [mkSMTSetAttribute]
    rw [if_pos hsort.symm]
    simp [SMTSetAttribute.execute, annsTruthy, setAttrExecAnns, setAttrExecAnn,
      hm, SMTVar.is_concrete, hmv, Ctx.create_fresh_var,
      Ctx.register_constraint, zAnd]
  refine ⟨_, _, hmk, ⟨_, rfl, ?_⟩, rfl⟩
  simp [setPlain, SMTVar.is_concrete]

/-- C5 witness: the symbolic guard over `annA` targeting `local_pref`
yields a non-concrete new value (fresh variable 1) and the single if/else
constraint. -/
theorem C5_setattribute_symbolic_one_constraint_witness :
    ∃ (s : SMTSetAttribute) (c' : Ctx),
      mkSMTSetAttribute symMatch .local_pref (some ⟨30, .int, none⟩) [annA] ctx0
        = some (s, c')
      ∧ (∃ l, s.new_announcements = some l
          ∧ ((l.getD 0 dummyAnn).plain .local_pref).is_concrete = false)
      ∧ c'.constraints = [Expr.ite (.var 0)
          (.eq (.var 1) (.var 30)) (.eq (.var 1) (.var 10))] :=
  C5_setattribute_symbolic_one_constraint symMatch .local_pref
    ⟨30, .int, none⟩ annA ctx0 ⟨0, .bool, none⟩ ⟨1, []⟩ rfl rfl rfl

/-- An initial Solver Context whose variable counter starts at 1 (so the
fresh variables of an execution are distinguishable from handle 0). -/
def ctx1 : Ctx := ⟨1, []⟩

/-- C8 (amended): for an `SMTSetOne` over one announcement whose
candidates all change exactly the plain attribute p, `execute` registers
exactly one constraint equating the fresh per-announcement Symbolic Value
with the nested conditional (selected by the index variable) over the
candidates' already-computed values of p — whose final fallback branch is
the fresh variable itself, not the pre-existing value — and under any
assignment placing the index at candidate j the conditional selects
candidate j's computed value. -/
theorem C8_setone_nested_conditional :
    ∀ (s : SMTSetOne) (a : Announcement) (p : PlainAttr) (c : Ctx),
      s.old_announcements = [a] → s.actions ≠ [] →
      (∀ act ∈ s.actions, act.foot = [AttrName.plain p]) →
      ((s.execute c).2.constraints = c.constraints ++
          [Expr.eq (.var c.nextVar)
            (getActionsChain s.actions s.index_var.id 0 p (.var c.nextVar) 0)])
      ∧ (∀ (ρ : Nat → Val) (j : Nat), j < s.actions.length →
          ρ s.index_var.id = Val.int j →
          Expr.eval ρ (getActionsChain s.actions s.index_var.id 0 p (.var c.nextVar) 0)
            = ρ (((s.actions.getD j dummyCand).newAnns.getD 0 dummyAnn).plain p).id) := by
  intro s a p c hold hne hfoot
  have hfoot' : ∀ x : AttrName, s.attrInFoot x = (x == AttrName.plain p) := by
    intro x
    rcases hb : (x == AttrName.plain p) with _ | _
    · apply list_any_eq_false
      intro act hact
      rw [hfoot act hact]
      simp [List.contains, List.elem, hb]
    · apply list_any_eq_true _ _ hne
      intro act hact
      rw [hfoot act hact]
      simp [List.contains, List.elem, hb]
  constructor
  · rw [SMTSetOne.execute, hold]
    cases p <;>
      simp [setOneExecAnns, setOneAttrs, AttrName.all, hfoot',
        Ctx.create_fresh_var, Ctx.register_constraint]
  · intro ρ j hj hρ
    have hρ' : ρ s.index_var.id = Val.int ((0 : Int) + j) := by
      rw [hρ]; congr 1; ring
    exact getActionsChain_select ρ p s.index_var.id 0 s.actions
      (.var c.nextVar) 0 j hj hρ'

/-- C8 witness: the one-candidate instance `sOne` over `annA`, executed in
`ctx1`: the registered constraint is the fresh variable 1 equated with the
conditional chain, and the assignment sending the index (handle 0) to 0
selects the candidate's computed value (handle 20). -/
theorem C8_setone_nested_conditional_witness :
    ((sOne.execute ctx1).2.constraints = ctx1.constraints ++
        [Expr.eq (.var 1) (getActionsChain [candA] 0 0 .local_pref (.var 1) 0)])
    ∧ (Expr.eval (fun _ => Val.int 0)
          (getActionsChain [candA] 0 0 .local_pref (.var 1) 0)
        = (fun _ => Val.int 0) 20) :=
  ⟨(C8_setone_nested_conditional sOne annA .local_pref ctx1 rfl
      (List.cons_ne_nil _ _)
      (fun act hact => by
        rw [List.mem_singleton.mp hact]; rfl)).1,
    (C8_setone_nested_conditional sOne annA .local_pref ctx1 rfl
      (List.cons_ne_nil _ _)
      (fun act hact => by
        rw [List.mem_singleton.mp hact]; rfl)).2 (fun _ => Val.int 0) 0
      (by decide) rfl⟩

/-- C8 counterexample: on the concrete instance `soRun` (index variable 0,
one candidate whose computed `local_pref` is variable 20, old announcement
value variable 10), the constraint registered by `execute` is the fresh
variable 1 equated with a conditional whose fallback branch is variable 1
— the fresh variable itself — and not variable 10, the announcement's
pre-existing value, refuting the claimed fallback. -/
theorem C8_counterexample_fallback_is_fresh_var :
    ((soRun.map (fun pr => (pr.1.execute pr.2).2.constraints.getD 1 (.boolLit true)))
      = some (.eq (.var 1)
          (.ite (.eq (.var 0) (.intLit 0)) (.var 20) (.var 1))))
    ∧ Expr.var 1 ≠ Expr.var 10 :=
  ⟨rfl, by decide⟩

end Synet
